import Mathlib

/-!
# Verification of the map-addr-saver usage-limiting and geocoding flow

A shallow embedding of the server of the `map-addr-saver` repository
(`server/routes.ts`, `server/storage.ts`, `shared/schema.ts`, and the
client map widget `client/src/components/KakaoMap.tsx`), together with
proofs about the per-client per-day usage quota, the
coordinate-to-address request handler, the static-map handler, the usage
query, and the map click listener.

Modelling conventions:
* The in-memory store (`MemStorage`) follows the bundled build of the
  server, where `usageRecords` is a JavaScript `Map` keyed by the record
  id and `updateUsageCount(id, count)` takes the record id — the
  signature actually used by the call `storage.updateUsageCount
  (existingUsage.id, newCount)` in `server/routes.ts`.  The JS `Map` is
  embedded as an association list in insertion order (`mapGet`,
  `mapSet`), which is how `Map.get`, `Map.set` and
  `Array.from(map.values())` behave.
* `randomUUID()` is modelled as a fresh identifier drawn from a counter
  (`nextId`); uuid collisions are assumed not to occur.
* Wall-clock values (`new Date()`) are passed in explicitly: `today` is
  the `YYYY-MM-DD` string and `now` the timestamp; one request handler
  run reads a single date.
* JavaScript numbers carried by the API (`lat`, `lng`) are embedded as
  rationals; no arithmetic is performed on them on the verified paths.
* A thrown exception is embedded as `Option.none` and is turned into a
  500 response by the `try/catch` at the handler boundary, as in the
  source.
-/

namespace MapAddrSaver

/-- A usage-tracking row (`usageTracking` in `shared/schema.ts`): id,
IP address, usage count, `YYYY-MM-DD` date string and two timestamps. -/
structure UsageRecord where
  id : Nat
  ipAddress : String
  usageCount : Nat
  date : String
  createdAt : Nat
  updatedAt : Nat
  deriving DecidableEq, Repr

/-- The insert shape (`insertUsageTrackingSchema` omits `id`,
`createdAt`, `updatedAt`). -/
structure InsertUsageTracking where
  ipAddress : String
  usageCount : Nat
  date : String
  deriving DecidableEq, Repr

/-- `MemStorage`: a JavaScript `Map` from record id to record, embedded
as an association list in insertion order, plus the id counter that
stands in for `randomUUID()`. -/
structure MemStorage where
  usageRecords : List (Nat × UsageRecord)
  nextId : Nat
  deriving DecidableEq, Repr

/-- The storage at process start: an empty map. -/
def emptyStorage : MemStorage := ⟨[], 0⟩

/-- JavaScript `Map.get`: the value at a key, if present. -/
def mapGet : List (Nat × UsageRecord) → Nat → Option UsageRecord
  | [], _ => none
  | (k1, v1) :: rest, k => if k1 = k then some v1 else mapGet rest k

/-- JavaScript `Map.set`: replace the value at an existing key in
place, otherwise append the new entry at the end. -/
def mapSet : List (Nat × UsageRecord) → Nat → UsageRecord → List (Nat × UsageRecord)
  | [], k, v => [(k, v)]
  | (k1, v1) :: rest, k, v =>
      if k1 = k then (k, v) :: rest else (k1, v1) :: mapSet rest k v

/-- `MemStorage.getUsageByIpAndDate`:
`Array.from(this.usageRecords.values()).find(r => r.ipAddress === ip && r.date === date)`. -/
def getUsageByIpAndDate (s : MemStorage) (ip date : String) : Option UsageRecord :=
  (s.usageRecords.map Prod.snd).find? fun r => r.ipAddress == ip && r.date == date

/-- `MemStorage.createUsageRecord`: draw a fresh id, stamp both
timestamps with `now`, and `Map.set` the record under its id. -/
def createUsageRecord (s : MemStorage) (ins : InsertUsageTracking) (now : Nat) :
    UsageRecord × MemStorage :=
  let id := s.nextId
  let usage : UsageRecord :=
    ⟨id, ins.ipAddress, ins.usageCount, ins.date, now, now⟩
  (usage, ⟨mapSet s.usageRecords id usage, s.nextId + 1⟩)

/-- `MemStorage.updateUsageCount(id, count)`: look the record up by id;
`none` embeds the thrown `Error("Usage record not found")`; otherwise
store a copy with the new count and a fresh `updatedAt`. -/
def updateUsageCount (s : MemStorage) (id count now : Nat) :
    Option (UsageRecord × MemStorage) :=
  match mapGet s.usageRecords id with
  | none => none
  | some existing =>
      let updated : UsageRecord := { existing with usageCount := count, updatedAt := now }
      some (updated, ⟨mapSet s.usageRecords id updated, s.nextId⟩)

/-- Result shape of `checkUsageLimit` in `server/routes.ts`. -/
structure CheckResult where
  allowed : Bool
  currentCount : Nat
  deriving DecidableEq, Repr

/-- `checkUsageLimit` in `server/routes.ts`: if no record exists for
(ip, today) a record with count 0 is created and the call is allowed;
if the count has reached 100 the call is refused; otherwise it is
allowed.  Returns the result together with the (possibly extended)
store. -/
def checkUsageLimit (s : MemStorage) (ip today : String) (now : Nat) :
    CheckResult × MemStorage :=
  match getUsageByIpAndDate s ip today with
  | none =>
      let c := createUsageRecord s ⟨ip, 0, today⟩ now
      (⟨true, 0⟩, c.2)
  | some existingUsage =>
      if 100 ≤ existingUsage.usageCount then
        (⟨false, existingUsage.usageCount⟩, s)
      else
        (⟨true, existingUsage.usageCount⟩, s)

/-- `incrementUsageCount` in `server/routes.ts`: if no record exists for
(ip, today) a record with count 1 is created; otherwise the record found
is updated (by its id) to count + 1.  `none` embeds the exception thrown
by `updateUsageCount` when the id is absent. -/
def incrementUsageCount (s : MemStorage) (ip today : String) (now : Nat) :
    Option (Nat × MemStorage) :=
  match getUsageByIpAndDate s ip today with
  | none =>
      let c := createUsageRecord s ⟨ip, 1, today⟩ now
      some (1, c.2)
  | some existingUsage =>
      match updateUsageCount s existingUsage.id (existingUsage.usageCount + 1) now with
      | none => none
      | some (_, s2) => some (existingUsage.usageCount + 1, s2)

/-! ## Request bodies and validation (`shared/schema.ts`) -/

/-- A JSON value, as delivered by the express JSON body parser.
Numbers are embedded as rationals. -/
inductive Json where
  | num : Rat → Json
  | str : String → Json
  | boolean : Bool → Json
  | null : Json
  | arr : List Json → Json
  | obj : List (String × Json) → Json
  deriving Repr

/-- Field access on a JSON object body (JavaScript objects have unique
keys; the first binding is taken). -/
def jsonGet : List (String × Json) → String → Option Json
  | [], _ => none
  | (k1, v1) :: rest, k => if k1 = k then some v1 else jsonGet rest k

/-- `coordinateToAddressSchema.safeParse`: succeeds exactly when the
body is an object whose `lat` and `lng` members are numbers
(`z.object({ lat: z.number(), lng: z.number() })`; extra members are
ignored). -/
def coordinateToAddressSafeParse (body : Json) : Option (Rat × Rat) :=
  match body with
  | Json.obj fields =>
      match jsonGet fields "lat", jsonGet fields "lng" with
      | some (Json.num lat), some (Json.num lng) => some (lat, lng)
      | _, _ => none
  | _ => none

/-- The canonical well-formed request body `{ lat, lng }`. -/
def coordBody (lat lng : Rat) : Json :=
  Json.obj [("lat", Json.num lat), ("lng", Json.num lng)]

/-! ## The upstream geocoding call (Kakao `coord2address`) -/

/-- One address variant in a Kakao document: only its `address_name`
member is read by the server. -/
structure KakaoAddress where
  address_name : String
  deriving DecidableEq, Repr

/-- One document of the Kakao response: the lot-number address
(`address`) and the road address (`road_address`), either of which may
be `null`. -/
structure KakaoDocument where
  address : Option KakaoAddress
  road_address : Option KakaoAddress
  deriving DecidableEq, Repr

/-- The `data` member of a resolved Kakao response; `documents` may be
absent. -/
structure KakaoData where
  documents : Option (List KakaoDocument)
  deriving DecidableEq, Repr

/-- Outcome of the awaited `axios.get` to the Kakao API, as observed by
the handler: a resolved response with data, a resolved response whose
`data` is falsy, a rejection that is an axios error carrying an
optional HTTP status, or any other thrown exception. -/
inductive Upstream where
  | ok : KakaoData → Upstream
  | noData : Upstream
  | axiosErr : Option Nat → Upstream
  | otherThrow : Upstream
  deriving DecidableEq, Repr

/-- An upstream response that resolves with the given single document. -/
def okUpstream (doc : KakaoDocument) : Upstream :=
  Upstream.ok ⟨some [doc]⟩

/-- A document carrying only a lot-number address. -/
def lotDoc (addr : String) : KakaoDocument := ⟨some ⟨addr⟩, none⟩

/-! ## HTTP responses -/

/-- The JSON (or image) bodies the three routes can produce, by shape:
`successBody` is `{ address, lat, lng, usageCount }`; `errorBody` is
`{ message }`; `quotaBody` is `{ message, currentCount }`;
`validationBody` is `{ message, errors }` (the zod issue list is not
modelled); `usageBody` is `{ count, limit, date }`; `imageBody` stands
for the inline SVG generated from the coordinate by the static-map
route. -/
inductive ResponseBody where
  | successBody : String → Rat → Rat → Nat → ResponseBody
  | errorBody : String → ResponseBody
  | quotaBody : String → Nat → ResponseBody
  | validationBody : String → ResponseBody
  | usageBody : Nat → Nat → String → ResponseBody
  | imageBody : Rat → Rat → ResponseBody
  deriving DecidableEq, Repr

/-- The `message` member of a response body, when present. -/
def ResponseBody.message : ResponseBody → Option String
  | ResponseBody.errorBody m => some m
  | ResponseBody.quotaBody m _ => some m
  | ResponseBody.validationBody m => some m
  | _ => none

/-- An HTTP response: status code and body. -/
structure HttpResponse where
  status : Nat
  body : ResponseBody
  deriving DecidableEq, Repr

/-- The observable outcome of one handler run: the response sent, the
store left behind, and whether the upstream geocoding API was called. -/
structure HandlerResult where
  response : HttpResponse
  store : MemStorage
  upstreamCalled : Bool
  deriving DecidableEq, Repr

/-! ## The three routes (`registerRoutes` in `server/routes.ts`) -/

/-- `GET /api/usage`: reads the record for (ip, today) and answers
`{ count: usage?.usageCount || 0, limit: 100, date: today }`.  The
handler body performs no store mutation. -/
def usageQueryHandler (s : MemStorage) (ip today : String) : HandlerResult :=
  ⟨⟨200, ResponseBody.usageBody
      (((getUsageByIpAndDate s ip today).map UsageRecord.usageCount).getD 0) 100 today⟩,
    s, false⟩

/-- `POST /api/static-map`: quota check, body validation, inline SVG
generation, usage increment, image response.  A thrown exception is
caught and answered with 500 `Failed to create map image`; no upstream
call is performed on this route. -/
def staticMapHandler (s : MemStorage) (ip today : String) (now : Nat) (body : Json) :
    HandlerResult :=
  let cr := checkUsageLimit s ip today now
  if cr.1.allowed = false then
    ⟨⟨429, ResponseBody.quotaBody "Daily usage limit exceeded (100 requests per day)"
        cr.1.currentCount⟩, cr.2, false⟩
  else
    match coordinateToAddressSafeParse body with
    | none => ⟨⟨400, ResponseBody.validationBody "Invalid request body"⟩, cr.2, false⟩
    | some (lat, lng) =>
        match incrementUsageCount cr.2 ip today now with
        | none => ⟨⟨500, ResponseBody.errorBody "Failed to create map image"⟩, cr.2, false⟩
        | some (_, s2) => ⟨⟨200, ResponseBody.imageBody lat lng⟩, s2, false⟩

/-- The address extraction inlined in the coordinate-to-address route:
`document.address ? document.address.address_name : (document.road_address
? document.road_address.address_name : "주소를 찾을 수 없습니다")`. -/
def extractAddress (document : KakaoDocument) : String :=
  match document.address with
  | some a => a.address_name
  | none =>
      match document.road_address with
      | some r => r.address_name
      | none => "주소를 찾을 수 없습니다"

/-- The `catch` block of the coordinate-to-address route, restricted to
axios errors: status 401 becomes a 500 `API authentication failed`,
status 429 becomes a 429 `API rate limit exceeded`, anything else
(including a missing response status) a 500 `External API error`. -/
def axiosCatchResponse (st : Option Nat) : HttpResponse :=
  if st = some 401 then ⟨500, ResponseBody.errorBody "API authentication failed"⟩
  else if st = some 429 then ⟨429, ResponseBody.errorBody "API rate limit exceeded"⟩
  else ⟨500, ResponseBody.errorBody "External API error"⟩

/-- `POST /api/coordinate-to-address`: quota check (429 when refused),
body validation (400 when malformed), awaited upstream call, 404 when
`data`/`documents` is missing or empty, address extraction preferring
the lot-number address over the road address with the Korean
placeholder as fallback, usage increment, success JSON.  The `catch`
maps an axios error with status 401 to 500, status 429 to 429, any
other axios error to 500, and any other exception (including the
increment throwing) to 500. -/
def coordinateToAddressHandler (s : MemStorage) (ip today : String) (now : Nat)
    (body : Json) (upstream : Upstream) : HandlerResult :=
  let cr := checkUsageLimit s ip today now
  if cr.1.allowed = false then
    ⟨⟨429, ResponseBody.quotaBody "Daily usage limit exceeded (100 requests per day)"
        cr.1.currentCount⟩, cr.2, false⟩
  else
    match coordinateToAddressSafeParse body with
    | none => ⟨⟨400, ResponseBody.validationBody "Invalid request body"⟩, cr.2, false⟩
    | some (lat, lng) =>
        match upstream with
        | Upstream.axiosErr st => ⟨axiosCatchResponse st, cr.2, true⟩
        | Upstream.otherThrow =>
            ⟨⟨500, ResponseBody.errorBody "Failed to convert coordinates to address"⟩,
              cr.2, true⟩
        | Upstream.noData =>
            ⟨⟨404, ResponseBody.errorBody "Address not found for the given coordinates"⟩,
              cr.2, true⟩
        | Upstream.ok dta =>
            match dta.documents with
            | none =>
                ⟨⟨404, ResponseBody.errorBody "Address not found for the given coordinates"⟩,
                  cr.2, true⟩
            | some [] =>
                ⟨⟨404, ResponseBody.errorBody "Address not found for the given coordinates"⟩,
                  cr.2, true⟩
            | some (document :: _) =>
                match incrementUsageCount cr.2 ip today now with
                | none =>
                    ⟨⟨500, ResponseBody.errorBody "Failed to convert coordinates to address"⟩,
                      cr.2, true⟩
                | some (newCount, s2) =>
                    ⟨⟨200, ResponseBody.successBody (extractAddress document) lat lng newCount⟩,
                      s2, true⟩

/-! ## The map widget click listener (`client/src/components/KakaoMap.tsx`) -/

/-- A Kakao `LatLng` value. -/
structure LatLng where
  lat : Rat
  lng : Rat
  deriving DecidableEq, Repr

/-- `latLng.getLat()`. -/
def LatLng.getLat (p : LatLng) : Rat := p.lat

/-- `latLng.getLng()`. -/
def LatLng.getLng (p : LatLng) : Rat := p.lng

/-- The mouse event delivered by the map SDK to a click listener; the
widget reads only its `latLng` member. -/
structure MapMouseEvent where
  latLng : LatLng
  deriving DecidableEq, Repr

/-- `LocationData` from `client/src/pages/home.tsx`: latitude,
longitude, optional resolved address. -/
structure LocationData where
  lat : Rat
  lng : Rat
  address : Option String := none
  deriving DecidableEq, Repr

/-- The click listener registered by `KakaoMap` on the map instance:
reads `mouseEvent.latLng` and invokes the caller-supplied
`onLocationSelect` callback with `{ lat: latLng.getLat(), lng:
latLng.getLng() }`.  The callback is embedded as a state transformer so
that its invocations are observable. -/
def kakaoMapClickListener {α : Type} (onLocationSelect : LocationData → α → α)
    (mouseEvent : MapMouseEvent) (st : α) : α :=
  let latLng := mouseEvent.latLng
  onLocationSelect ⟨latLng.getLat, latLng.getLng, none⟩ st

/-! ## Lemmas about the JS-Map embedding -/

theorem mapGet_of_mem {l : List (Nat × UsageRecord)} {k : Nat} {v : UsageRecord}
    (huniq : l.Pairwise fun a b => a.1 ≠ b.1) (hmem : (k, v) ∈ l) :
    mapGet l k = some v := by
  induction l with
  | nil => cases hmem
  | cons e rest ih =>
      rcases List.pairwise_cons.mp huniq with ⟨hhead, htail⟩
      rcases List.mem_cons.mp hmem with h | h
      · cases h
        simp [mapGet]
      · have hne : e.1 ≠ k := hhead (k, v) h
        simpa [mapGet, hne] using ih htail h

theorem mapGet_mem {l : List (Nat × UsageRecord)} {k : Nat} {v : UsageRecord}
    (h : mapGet l k = some v) : (k, v) ∈ l := by
  induction l with
  | nil => simp [mapGet] at h
  | cons e rest ih =>
      by_cases hk : e.1 = k
      · simp only [mapGet, if_pos hk] at h
        cases h
        subst hk
        exact List.mem_cons_self e rest
      · simp only [mapGet, if_neg hk] at h
        exact List.mem_cons_of_mem _ (ih h)

theorem mem_mapSet {l : List (Nat × UsageRecord)} {k : Nat} {v : UsageRecord}
    {e : Nat × UsageRecord} (h : e ∈ mapSet l k v) : e = (k, v) ∨ e ∈ l := by
  induction l with
  | nil => simpa [mapSet] using h
  | cons e1 rest ih =>
      by_cases hk : e1.1 = k
      · rcases List.mem_cons.mp (by simpa [mapSet, hk] using h) with h2 | h2
        · exact Or.inl h2
        · exact Or.inr (List.mem_cons_of_mem _ h2)
      · rcases List.mem_cons.mp (by simpa [mapSet, hk] using h) with h2 | h2
        · exact Or.inr (h2 ▸ List.mem_cons_self _ _)
        · rcases ih h2 with h3 | h3
          · exact Or.inl h3
          · exact Or.inr (List.mem_cons_of_mem _ h3)

theorem mem_mapSet_self (l : List (Nat × UsageRecord)) (k : Nat) (v : UsageRecord) :
    (k, v) ∈ mapSet l k v := by
  induction l with
  | nil => simp [mapSet]
  | cons e1 rest ih =>
      by_cases hk : e1.1 = k
      · simp [mapSet, hk]
      · simpa [mapSet, hk] using Or.inr ih

theorem mem_mapSet_of_ne {l : List (Nat × UsageRecord)} {k : Nat} {v : UsageRecord}
    {e : Nat × UsageRecord} (hmem : e ∈ l) (hne : e.1 ≠ k) : e ∈ mapSet l k v := by
  induction l with
  | nil => cases hmem
  | cons e1 rest ih =>
      by_cases hk : e1.1 = k
      · rcases List.mem_cons.mp hmem with h | h
        · exact absurd (h ▸ hk) hne
        · simpa [mapSet, hk] using Or.inr h
      · rcases List.mem_cons.mp hmem with h | h
        · simpa [mapSet, hk] using Or.inl h
        · simpa [mapSet, hk] using Or.inr (ih h)

theorem mapSet_fresh {l : List (Nat × UsageRecord)} {k : Nat} (v : UsageRecord)
    (hfresh : ∀ e ∈ l, e.1 ≠ k) : mapSet l k v = l ++ [(k, v)] := by
  induction l with
  | nil => simp [mapSet]
  | cons e1 rest ih =>
      have hne : e1.1 ≠ k := hfresh e1 (List.mem_cons_self _ _)
      simp only [mapSet, if_neg hne, List.cons_append, List.cons.injEq, true_and]
      exact ih fun e he => hfresh e (List.mem_cons_of_mem _ he)

theorem find?_append_of_none {α : Type} {p : α → Bool} {l1 l2 : List α}
    (h : l1.find? p = none) : (l1 ++ l2).find? p = l2.find? p := by
  induction l1 with
  | nil => simp
  | cons a rest ih =>
      by_cases hp : p a
      · simp [List.find?_cons_of_pos _ hp] at h
      · simp only [List.find?_cons_of_neg _ hp] at h
        simpa [List.find?_cons_of_neg _ hp] using ih h

/-- The profile of a map entry: its key together with the (ip, date)
pair of its record.  Both uniqueness invariants factor through it. -/
def entryProf (e : Nat × UsageRecord) : Nat × String × String :=
  (e.1, e.2.ipAddress, e.2.date)

theorem mapSet_map_entryProf {l : List (Nat × UsageRecord)} {k : Nat}
    {old v : UsageRecord} (hget : mapGet l k = some old)
    (hip : v.ipAddress = old.ipAddress) (hdate : v.date = old.date) :
    (mapSet l k v).map entryProf = l.map entryProf := by
  induction l with
  | nil => simp [mapGet] at hget
  | cons e1 rest ih =>
      by_cases hk : e1.1 = k
      · simp only [mapGet, if_pos hk] at hget
        cases hget
        simp [mapSet, if_pos hk, entryProf, hip, hdate, hk]
      · simp only [mapGet, if_neg hk] at hget
        simp [mapSet, hk, ih hget]

/-- After replacing the record found by `find?` (by its key) with a
record that still satisfies the predicate, `find?` over the values
returns the replacement. -/
theorem find?_values_mapSet_found {l : List (Nat × UsageRecord)}
    {p : UsageRecord → Bool} {u : UsageRecord}
    (hKeyId : ∀ e ∈ l, e.2.id = e.1)
    (huniq : l.Pairwise fun a b => a.1 ≠ b.1)
    (hfind : (l.map Prod.snd).find? p = some u)
    {v : UsageRecord} (hpv : p v = true) :
    ((mapSet l u.id v).map Prod.snd).find? p = some v := by
  induction l with
  | nil => simp at hfind
  | cons e1 rest ih =>
      rcases List.pairwise_cons.mp huniq with ⟨hhead, htail⟩
      by_cases hp : p e1.2
      · have hu : u = e1.2 := by
          rw [List.map_cons, List.find?_cons_of_pos _ hp] at hfind
          exact (Option.some_inj.mp hfind).symm
        have hid : u.id = e1.1 := by
          rw [hu]; exact hKeyId e1 (List.mem_cons_self _ _)
        simp only [mapSet, hid, if_pos rfl, List.map_cons]
        exact List.find?_cons_of_pos _ hpv
      · have hfind2 : (rest.map Prod.snd).find? p = some u := by
          simpa [List.find?_cons_of_neg _ hp] using hfind
        have humem : u ∈ rest.map Prod.snd := List.mem_of_find?_eq_some hfind2
        rcases List.mem_map.mp humem with ⟨e2, he2, he2u⟩
        have hid : u.id = e2.1 := by
          rw [← he2u]; exact hKeyId e2 (List.mem_cons_of_mem _ he2)
        have hne : e1.1 ≠ u.id := by
          rw [hid]; exact hhead e2 he2
        simp only [mapSet, if_neg hne, List.map_cons]
        rw [List.find?_cons_of_neg _ hp]
        exact ih (fun e he => hKeyId e (List.mem_cons_of_mem _ he)) htail hfind2

/-! ## Store well-formedness -/

/-- Well-formedness of the store, maintained by every operation:
all keys are below the id counter (so fresh ids never collide), every
record is filed under its own id, keys are pairwise distinct (a JS
`Map` property), and at most one record exists per (ip, date) pair. -/
def StoreOk (s : MemStorage) : Prop :=
  (∀ e ∈ s.usageRecords, e.1 < s.nextId) ∧
  (∀ e ∈ s.usageRecords, e.2.id = e.1) ∧
  (s.usageRecords.Pairwise fun a b => a.1 ≠ b.1) ∧
  (s.usageRecords.Pairwise fun a b =>
    ¬(a.2.ipAddress = b.2.ipAddress ∧ a.2.date = b.2.date))

/-- All stored counts are at most `n`. -/
def CountsLe (n : Nat) (s : MemStorage) : Prop :=
  ∀ e ∈ s.usageRecords, e.2.usageCount ≤ n

/-- The usage count a client observes for (ip, today): the stored
count, or 0 when no record exists. -/
def countView (s : MemStorage) (ip today : String) : Nat :=
  ((getUsageByIpAndDate s ip today).map UsageRecord.usageCount).getD 0

theorem storeOk_empty : StoreOk emptyStorage := by
  refine ⟨?_, ?_, ?_, ?_⟩ <;> simp [emptyStorage]

/-- What a successful (ip, date) lookup tells us about the record found. -/
theorem getUsage_found {s : MemStorage} {ip today : String} {u : UsageRecord}
    (hfind : getUsageByIpAndDate s ip today = some u) :
    u.ipAddress = ip ∧ u.date = today ∧ ∃ e ∈ s.usageRecords, e.2 = u := by
  have hp := List.find?_some hfind
  have hmem := List.mem_of_find?_eq_some hfind
  rcases List.mem_map.mp hmem with ⟨e, he, heu⟩
  simp only [Bool.and_eq_true, beq_iff_eq] at hp
  exact ⟨hp.1, hp.2, e, he, heu⟩

/-- Behaviour of `createUsageRecord` on a well-formed store that has no
record for (ip, today): the new record is appended, the store stays
well-formed, and the lookup now finds the new record. -/
theorem create_spec (s : MemStorage) (ip today : String) (c now : Nat)
    (hok : StoreOk s) (hnone : getUsageByIpAndDate s ip today = none) :
    StoreOk (createUsageRecord s ⟨ip, c, today⟩ now).2 ∧
    (createUsageRecord s ⟨ip, c, today⟩ now).2.usageRecords
      = s.usageRecords ++ [(s.nextId, ⟨s.nextId, ip, c, today, now, now⟩)] ∧
    getUsageByIpAndDate (createUsageRecord s ⟨ip, c, today⟩ now).2 ip today
      = some ⟨s.nextId, ip, c, today, now, now⟩ := by
  obtain ⟨hlt, hid, huk, hup⟩ := hok
  have hfresh : ∀ e ∈ s.usageRecords, e.1 ≠ s.nextId := fun e he =>
    Nat.ne_of_lt (hlt e he)
  have hrec : (createUsageRecord s ⟨ip, c, today⟩ now).2.usageRecords
      = s.usageRecords ++ [(s.nextId, ⟨s.nextId, ip, c, today, now, now⟩)] := by
    simp only [createUsageRecord]
    exact mapSet_fresh _ hfresh
  have hnomatch : ∀ x ∈ s.usageRecords.map Prod.snd,
      ¬(x.ipAddress == ip && x.date == today) = true := by
    intro x hx
    exact List.find?_eq_none.mp hnone x hx
  refine ⟨⟨?_, ?_, ?_, ?_⟩, hrec, ?_⟩
  · intro e he
    rw [hrec] at he
    simp only [createUsageRecord]
    rcases List.mem_append.mp he with h | h
    · exact Nat.lt_succ_of_lt (hlt e h)
    · simp only [List.mem_singleton] at h
      subst h
      exact Nat.lt_succ_self _
  · intro e he
    rw [hrec] at he
    rcases List.mem_append.mp he with h | h
    · exact hid e h
    · simp only [List.mem_singleton] at h
      subst h
      rfl
  · rw [hrec]
    refine List.pairwise_append.mpr ⟨huk, List.pairwise_singleton _ _, ?_⟩
    intro a ha b hb
    simp only [List.mem_singleton] at hb
    subst hb
    exact hfresh a ha
  · rw [hrec]
    refine List.pairwise_append.mpr ⟨hup, List.pairwise_singleton _ _, ?_⟩
    intro a ha b hb
    simp only [List.mem_singleton] at hb
    subst hb
    have := hnomatch a.2 (List.mem_map_of_mem Prod.snd ha)
    simp only [Bool.and_eq_true, beq_iff_eq] at this
    simpa using this
  · simp only [getUsageByIpAndDate, hrec, List.map_append]
    rw [find?_append_of_none hnone]
    simp

/-- Behaviour of `incrementUsageCount` on a well-formed store holding a
record `u` for (ip, today): the call succeeds, returns `u.usageCount +
1`, replaces exactly `u`'s entry, keeps the store well-formed, and the
lookup now finds the bumped record. -/
theorem increment_spec (s : MemStorage) (ip today : String) (now : Nat)
    (u : UsageRecord) (hok : StoreOk s)
    (hfind : getUsageByIpAndDate s ip today = some u) :
    incrementUsageCount s ip today now
      = some (u.usageCount + 1,
          ⟨mapSet s.usageRecords u.id
            { u with usageCount := u.usageCount + 1, updatedAt := now }, s.nextId⟩) ∧
    StoreOk ⟨mapSet s.usageRecords u.id
        { u with usageCount := u.usageCount + 1, updatedAt := now }, s.nextId⟩ ∧
    getUsageByIpAndDate
        ⟨mapSet s.usageRecords u.id
          { u with usageCount := u.usageCount + 1, updatedAt := now }, s.nextId⟩ ip today
      = some { u with usageCount := u.usageCount + 1, updatedAt := now } := by
  obtain ⟨hlt, hid, huk, hup⟩ := hok
  obtain ⟨hip, hdate, e, he, heu⟩ := getUsage_found hfind
  have hkey : u.id = e.1 := by rw [← heu]; exact hid e he
  have hget : mapGet s.usageRecords u.id = some u := by
    rw [hkey, ← heu]
    exact mapGet_of_mem huk (by simpa using he)
  have hpu : (u.ipAddress == ip && u.date == today) = true := by simp [hip, hdate]
  set updated : UsageRecord :=
    { u with usageCount := u.usageCount + 1, updatedAt := now } with hupd
  have hprof : (mapSet s.usageRecords u.id updated).map entryProf
      = s.usageRecords.map entryProf := mapSet_map_entryProf hget rfl rfl
  have hcall : incrementUsageCount s ip today now
      = some (u.usageCount + 1, ⟨mapSet s.usageRecords u.id updated, s.nextId⟩) := by
    simp only [incrementUsageCount, hfind, updateUsageCount, hget]
  refine ⟨hcall, ⟨?_, ?_, ?_, ?_⟩, ?_⟩
  · intro f hf
    rcases mem_mapSet hf with h | h
    · subst h
      rw [hkey]
      exact hlt e he
    · exact hlt f h
  · intro f hf
    rcases mem_mapSet hf with h | h
    · subst h; rfl
    · exact hid f h
  · have hA : ((mapSet s.usageRecords u.id updated).map entryProf).Pairwise
        (fun x y : Nat × String × String => x.1 ≠ y.1) := by
      rw [hprof]
      exact (List.pairwise_map (f := entryProf)).mpr huk
    exact (List.pairwise_map (f := entryProf)).mp hA
  · have hA : ((mapSet s.usageRecords u.id updated).map entryProf).Pairwise
        (fun x y : Nat × String × String => ¬(x.2.1 = y.2.1 ∧ x.2.2 = y.2.2)) := by
      rw [hprof]
      exact (List.pairwise_map (f := entryProf)).mpr hup
    exact (List.pairwise_map (f := entryProf)).mp hA
  · exact find?_values_mapSet_found hid huk hfind (by simpa [hupd] using hpu)

/-- `checkUsageLimit` on a store with no record for (ip, today):
allowed, current count 0, a count-0 record is created. -/
theorem check_none_eq (s : MemStorage) (ip today : String) (now : Nat)
    (hnone : getUsageByIpAndDate s ip today = none) :
    checkUsageLimit s ip today now
      = (⟨true, 0⟩, (createUsageRecord s ⟨ip, 0, today⟩ now).2) := by
  simp [checkUsageLimit, hnone]

/-- `checkUsageLimit` on a record below the limit: allowed, store
untouched. -/
theorem check_allow_eq (s : MemStorage) (ip today : String) (now : Nat)
    (u : UsageRecord) (hfind : getUsageByIpAndDate s ip today = some u)
    (hlow : u.usageCount < 100) :
    checkUsageLimit s ip today now = (⟨true, u.usageCount⟩, s) := by
  simp [checkUsageLimit, hfind, Nat.not_le_of_lt hlow]

/-- `checkUsageLimit` on a record at or above the limit: refused, store
untouched. -/
theorem check_refuse_eq (s : MemStorage) (ip today : String) (now : Nat)
    (u : UsageRecord) (hfind : getUsageByIpAndDate s ip today = some u)
    (hhigh : 100 ≤ u.usageCount) :
    checkUsageLimit s ip today now = (⟨false, u.usageCount⟩, s) := by
  simp [checkUsageLimit, hfind, hhigh]

theorem find?_append_of_some {α : Type} {p : α → Bool} {l1 l2 : List α} {x : α}
    (h : l1.find? p = some x) : (l1 ++ l2).find? p = some x := by
  induction l1 with
  | nil => simp at h
  | cons a rest ih =>
      by_cases hp : p a
      · rw [List.find?_cons_of_pos _ hp] at h
        simpa [List.find?_cons_of_pos _ hp] using h
      · rw [List.find?_cons_of_neg _ hp] at h
        simpa [List.find?_cons_of_neg _ hp] using ih h

/-- Whether the stored count for (ip, today) has reached the daily
limit. -/
def quotaFlag (s : MemStorage) (ip today : String) : Bool :=
  decide (100 ≤ countView s ip today)

/-- Every record of `s2` is either a record of `s` or a fresh record
with count 0 (used to state that an operation modifies no existing
count). -/
def OnlyFreshZero (s s2 : MemStorage) : Prop :=
  ∀ e ∈ s2.usageRecords, e ∈ s.usageRecords ∨ e.2.usageCount = 0

/-- `currentCount` as returned by the quota check is exactly the
observable count for (ip, today). -/
theorem check_currentCount (s : MemStorage) (ip today : String) (now : Nat) :
    (checkUsageLimit s ip today now).1.currentCount = countView s ip today := by
  rcases hfind : getUsageByIpAndDate s ip today with _ | u
  · simp [checkUsageLimit, hfind, countView]
  · by_cases hh : 100 ≤ u.usageCount
    · simp [check_refuse_eq s ip today now u hfind hh, countView, hfind]
    · simp [check_allow_eq s ip today now u hfind (Nat.lt_of_not_le hh), countView, hfind]

/-- The quota check allows the call exactly when the observable count
is at most 99. -/
theorem check_allowed_eq (s : MemStorage) (ip today : String) (now : Nat) :
    (checkUsageLimit s ip today now).1.allowed = decide (countView s ip today ≤ 99) := by
  rcases hfind : getUsageByIpAndDate s ip today with _ | u
  · simp [checkUsageLimit, hfind, countView]
  · by_cases hh : 100 ≤ u.usageCount
    · have : ¬ u.usageCount ≤ 99 := by omega
      simp [check_refuse_eq s ip today now u hfind hh, countView, hfind, this]
    · have : u.usageCount ≤ 99 := by omega
      simp [check_allow_eq s ip today now u hfind (Nat.lt_of_not_le hh), countView, hfind, this]

/-- The quota check never changes any observable count (it at most
creates a count-0 record). -/
theorem check_countView_frame (s : MemStorage) (ip today : String) (now : Nat)
    (ip2 today2 : String) (hok : StoreOk s) :
    countView (checkUsageLimit s ip today now).2 ip2 today2 = countView s ip2 today2 := by
  rcases hfind : getUsageByIpAndDate s ip today with _ | u
  · rw [check_none_eq s ip today now hfind]
    obtain ⟨_, hrec, _⟩ := create_spec s ip today 0 now hok hfind
    rcases h2 : getUsageByIpAndDate s ip2 today2 with _ | x
    · have h2m : (s.usageRecords.map Prod.snd).find?
          (fun r => r.ipAddress == ip2 && r.date == today2) = none := h2
      have hL : getUsageByIpAndDate (createUsageRecord s ⟨ip, 0, today⟩ now).2 ip2 today2
          = List.find? (fun r => r.ipAddress == ip2 && r.date == today2)
              [(⟨s.nextId, ip, 0, today, now, now⟩ : UsageRecord)] := by
        simp only [getUsageByIpAndDate, hrec, List.map_append, List.map_cons, List.map_nil]
        rw [find?_append_of_none h2m]
      rcases h3 : List.find? (fun r => r.ipAddress == ip2 && r.date == today2)
          [(⟨s.nextId, ip, 0, today, now, now⟩ : UsageRecord)] with _ | y
      · simp [countView, hL, h3, h2]
      · have hy : y = (⟨s.nextId, ip, 0, today, now, now⟩ : UsageRecord) := by
          simpa using List.mem_of_find?_eq_some h3
        simp [countView, hL, h3, h2, hy]
    · have h2m : (s.usageRecords.map Prod.snd).find?
          (fun r => r.ipAddress == ip2 && r.date == today2) = some x := h2
      have hL : getUsageByIpAndDate (createUsageRecord s ⟨ip, 0, today⟩ now).2 ip2 today2
          = some x := by
        simp only [getUsageByIpAndDate, hrec, List.map_append, List.map_cons, List.map_nil]
        exact find?_append_of_some h2m
      simp [countView, hL, h2]
  · by_cases hh : 100 ≤ u.usageCount
    · rw [check_refuse_eq s ip today now u hfind hh]
    · rw [check_allow_eq s ip today now u hfind (Nat.lt_of_not_le hh)]

/-- The quota check modifies no existing record. -/
theorem check_onlyFreshZero (s : MemStorage) (ip today : String) (now : Nat)
    (hok : StoreOk s) :
    OnlyFreshZero s (checkUsageLimit s ip today now).2 := by
  rcases hfind : getUsageByIpAndDate s ip today with _ | u
  · rw [check_none_eq s ip today now hfind]
    obtain ⟨_, hrec, _⟩ := create_spec s ip today 0 now hok hfind
    intro e he
    rw [hrec] at he
    rcases List.mem_append.mp he with h | h
    · exact Or.inl h
    · simp only [List.mem_singleton] at h
      subst h
      exact Or.inr rfl
  · by_cases hh : 100 ≤ u.usageCount
    · rw [check_refuse_eq s ip today now u hfind hh]
      exact fun e he => Or.inl he
    · rw [check_allow_eq s ip today now u hfind (Nat.lt_of_not_le hh)]
      exact fun e he => Or.inl he

/-- When the quota check allows the call, the resulting store is
well-formed and holds a record for (ip, today) whose count is the
observable count (at most 99). -/
theorem check_allow_spec (s : MemStorage) (ip today : String) (now : Nat)
    (hok : StoreOk s) (hq : countView s ip today ≤ 99) :
    (checkUsageLimit s ip today now).1.allowed = true ∧
    StoreOk (checkUsageLimit s ip today now).2 ∧
    ∃ u2, getUsageByIpAndDate (checkUsageLimit s ip today now).2 ip today = some u2 ∧
      u2.usageCount = countView s ip today := by
  rcases hfind : getUsageByIpAndDate s ip today with _ | u
  · rw [check_none_eq s ip today now hfind]
    obtain ⟨hok2, _, hget⟩ := create_spec s ip today 0 now hok hfind
    exact ⟨rfl, hok2, ⟨s.nextId, ip, 0, today, now, now⟩, hget, by
      simp [countView, hfind]⟩
  · have hlow : u.usageCount < 100 := by
      have : countView s ip today = u.usageCount := by simp [countView, hfind]
      omega
    rw [check_allow_eq s ip today now u hfind hlow]
    exact ⟨rfl, hok, u, hfind, by simp [countView, hfind]⟩

/-- `coordinateToAddressSafeParse` accepts the canonical body. -/
theorem parse_coordBody (lat lng : Rat) :
    coordinateToAddressSafeParse (coordBody lat lng) = some (lat, lng) := by
  simp [coordinateToAddressSafeParse, coordBody, jsonGet]

/-- The full success path of the coordinate-to-address route: when the
store is well-formed, the quota is not exhausted, the body parses, and
the upstream returns at least one document, the handler answers 200
with the extracted address and the bumped count, and the stored count
goes up by one. -/
theorem coord_success_spec (s : MemStorage) (ip today : String) (now : Nat)
    (body : Json) (lat lng : Rat) (document : KakaoDocument) (rest : List KakaoDocument)
    (hok : StoreOk s) (hq : countView s ip today ≤ 99)
    (hp : coordinateToAddressSafeParse body = some (lat, lng)) :
    ∃ s2, coordinateToAddressHandler s ip today now body (Upstream.ok ⟨some (document :: rest)⟩)
        = ⟨⟨200, ResponseBody.successBody (extractAddress document) lat lng
            (countView s ip today + 1)⟩, s2, true⟩ ∧
      StoreOk s2 ∧ countView s2 ip today = countView s ip today + 1 ∧
      (getUsageByIpAndDate s2 ip today).isSome = true := by
  obtain ⟨hA, hok2, u2, hfind2, hcnt⟩ := check_allow_spec s ip today now hok hq
  obtain ⟨hcall, hok3, hget3⟩ :=
    increment_spec (checkUsageLimit s ip today now).2 ip today now u2 hok2 hfind2
  refine ⟨⟨mapSet (checkUsageLimit s ip today now).2.usageRecords u2.id
      { u2 with usageCount := u2.usageCount + 1, updatedAt := now },
      (checkUsageLimit s ip today now).2.nextId⟩, ?_, hok3, ?_, ?_⟩
  · have h200 : coordinateToAddressHandler s ip today now body
        (Upstream.ok ⟨some (document :: rest)⟩)
        = ⟨⟨200, ResponseBody.successBody (extractAddress document) lat lng
            (u2.usageCount + 1)⟩,
          ⟨mapSet (checkUsageLimit s ip today now).2.usageRecords u2.id
            { u2 with usageCount := u2.usageCount + 1, updatedAt := now },
            (checkUsageLimit s ip today now).2.nextId⟩, true⟩ := by
      simp [coordinateToAddressHandler, hA, hp, hcall]
    rw [h200, hcnt]
  · have h2 : countView (⟨mapSet (checkUsageLimit s ip today now).2.usageRecords u2.id
        { u2 with usageCount := u2.usageCount + 1, updatedAt := now },
        (checkUsageLimit s ip today now).2.nextId⟩ : MemStorage) ip today
        = u2.usageCount + 1 := by
      simp [countView, hget3]
    rw [h2, hcnt]
  · simp [hget3]

/-- The full success path of the static-map route: when the store is
well-formed, the quota is not exhausted and the body parses, the
handler answers the generated image and the stored count goes up by
one; no upstream call is made. -/
theorem staticMap_success_spec (s : MemStorage) (ip today : String) (now : Nat)
    (body : Json) (lat lng : Rat)
    (hok : StoreOk s) (hq : countView s ip today ≤ 99)
    (hp : coordinateToAddressSafeParse body = some (lat, lng)) :
    ∃ s2, staticMapHandler s ip today now body
        = ⟨⟨200, ResponseBody.imageBody lat lng⟩, s2, false⟩ ∧
      StoreOk s2 ∧ countView s2 ip today = countView s ip today + 1 ∧
      (getUsageByIpAndDate s2 ip today).isSome = true := by
  obtain ⟨hA, hok2, u2, hfind2, hcnt⟩ := check_allow_spec s ip today now hok hq
  obtain ⟨hcall, hok3, hget3⟩ :=
    increment_spec (checkUsageLimit s ip today now).2 ip today now u2 hok2 hfind2
  refine ⟨⟨mapSet (checkUsageLimit s ip today now).2.usageRecords u2.id
      { u2 with usageCount := u2.usageCount + 1, updatedAt := now },
      (checkUsageLimit s ip today now).2.nextId⟩, ?_, hok3, ?_, ?_⟩
  · simp [staticMapHandler, hA, hp, hcall]
  · have h2 : countView (⟨mapSet (checkUsageLimit s ip today now).2.usageRecords u2.id
        { u2 with usageCount := u2.usageCount + 1, updatedAt := now },
        (checkUsageLimit s ip today now).2.nextId⟩ : MemStorage) ip today
        = u2.usageCount + 1 := by
      simp [countView, hget3]
    rw [h2, hcnt]
  · simp [hget3]

/-! ## Reachability and invariants -/

/-- One handled request, as a transition on the store. -/
inductive Step : MemStorage → MemStorage → Prop where
  | usageQuery (s : MemStorage) (ip today : String) :
      Step s (usageQueryHandler s ip today).store
  | staticMap (s : MemStorage) (ip today : String) (now : Nat) (body : Json) :
      Step s (staticMapHandler s ip today now body).store
  | coordToAddress (s : MemStorage) (ip today : String) (now : Nat) (body : Json)
      (upstream : Upstream) :
      Step s (coordinateToAddressHandler s ip today now body upstream).store

/-- A store is reachable when a sequence of handled requests leads to
it from the empty store at process start. -/
def Reachable (s : MemStorage) : Prop :=
  Relation.ReflTransGen Step emptyStorage s

/-- Every record of `s` survives into `s2`: an entry with the same key,
ip and date is still present (its count may have changed). -/
def RecordsKept (s s2 : MemStorage) : Prop :=
  ∀ e ∈ s.usageRecords, ∃ e2 ∈ s2.usageRecords,
    e2.1 = e.1 ∧ e2.2.ipAddress = e.2.ipAddress ∧ e2.2.date = e.2.date

theorem recordsKept_refl (s : MemStorage) : RecordsKept s s :=
  fun e he => ⟨e, he, rfl, rfl, rfl⟩

theorem recordsKept_trans {a b c : MemStorage}
    (h1 : RecordsKept a b) (h2 : RecordsKept b c) : RecordsKept a c := by
  intro e he
  obtain ⟨e2, he2, hk, hi, hd⟩ := h1 e he
  obtain ⟨e3, he3, hk2, hi2, hd2⟩ := h2 e2 he2
  exact ⟨e3, he3, hk2.trans hk, hi2.trans hi, hd2.trans hd⟩

/-- The quota check preserves well-formedness, the count bound, and
removes no record. -/
theorem check_preserve (s : MemStorage) (ip today : String) (now : Nat)
    (hok : StoreOk s) (hle : CountsLe 100 s) :
    StoreOk (checkUsageLimit s ip today now).2 ∧
    CountsLe 100 (checkUsageLimit s ip today now).2 ∧
    RecordsKept s (checkUsageLimit s ip today now).2 := by
  rcases hfind : getUsageByIpAndDate s ip today with _ | u
  · rw [check_none_eq s ip today now hfind]
    obtain ⟨hok2, hrec, _⟩ := create_spec s ip today 0 now hok hfind
    refine ⟨hok2, ?_, ?_⟩
    · intro e he
      rw [hrec] at he
      rcases List.mem_append.mp he with h | h
      · exact hle e h
      · simp only [List.mem_singleton] at h
        subst h
        exact Nat.zero_le _
    · intro e he
      exact ⟨e, by rw [hrec]; exact List.mem_append_left _ he, rfl, rfl, rfl⟩
  · by_cases hh : 100 ≤ u.usageCount
    · rw [check_refuse_eq s ip today now u hfind hh]
      exact ⟨hok, hle, recordsKept_refl s⟩
    · rw [check_allow_eq s ip today now u hfind (Nat.lt_of_not_le hh)]
      exact ⟨hok, hle, recordsKept_refl s⟩

/-- The increment preserves well-formedness, keeps every count at most
100 provided the bumped record was at most 99, and removes no record. -/
theorem increment_preserve (s : MemStorage) (ip today : String) (now : Nat)
    (hok : StoreOk s) (hle : CountsLe 100 s)
    (u : UsageRecord) (hfind : getUsageByIpAndDate s ip today = some u)
    (hu : u.usageCount ≤ 99) :
    ∀ n s2, incrementUsageCount s ip today now = some (n, s2) →
      StoreOk s2 ∧ CountsLe 100 s2 ∧ RecordsKept s s2 := by
  intro n s2 hcall2
  obtain ⟨hcall, hok2, hget2⟩ := increment_spec s ip today now u hok hfind
  rw [hcall] at hcall2
  simp only [Option.some.injEq, Prod.mk.injEq] at hcall2
  obtain ⟨-, hs2⟩ := hcall2
  subst hs2
  refine ⟨hok2, ?_, ?_⟩
  · intro e he
    rcases mem_mapSet he with h | h
    · subst h
      simpa using Nat.succ_le_succ hu
    · exact hle e h
  · intro e he
    by_cases hne : e.1 = u.id
    · obtain ⟨hip, hdate, e0, he0, he0u⟩ := getUsage_found hfind
      have hkey : u.id = e0.1 := by rw [← he0u]; exact hok.2.1 e0 he0
      have hg1 : mapGet s.usageRecords e.1 = some e.2 :=
        mapGet_of_mem hok.2.2.1 (by simpa using he)
      have hg2 : mapGet s.usageRecords e0.1 = some e0.2 :=
        mapGet_of_mem hok.2.2.1 (by simpa using he0)
      have he2 : e.2 = u := by
        rw [hne, hkey] at hg1
        rw [hg1] at hg2
        rw [← he0u]
        exact Option.some_inj.mp hg2
      refine ⟨(u.id, { u with usageCount := u.usageCount + 1, updatedAt := now }),
          mem_mapSet_self _ _ _, hne.symm, ?_, ?_⟩
      · rw [he2]
      · rw [he2]
    · exact ⟨e, mem_mapSet_of_ne he hne, rfl, rfl, rfl⟩

/-- The static-map route preserves the invariants and removes no
record. -/
theorem staticMap_preserve (s : MemStorage) (ip today : String) (now : Nat)
    (body : Json) (hok : StoreOk s) (hle : CountsLe 100 s) :
    StoreOk (staticMapHandler s ip today now body).store ∧
    CountsLe 100 (staticMapHandler s ip today now body).store ∧
    RecordsKept s (staticMapHandler s ip today now body).store := by
  obtain ⟨hokC, hleC, hkC⟩ := check_preserve s ip today now hok hle
  cases hA : (checkUsageLimit s ip today now).1.allowed with
  | false =>
      have hst : (staticMapHandler s ip today now body).store
          = (checkUsageLimit s ip today now).2 := by
        simp [staticMapHandler, hA]
      rw [hst]
      exact ⟨hokC, hleC, hkC⟩
  | true =>
      have hq : countView s ip today ≤ 99 := by
        have h2 := check_allowed_eq s ip today now
        rw [hA] at h2
        exact of_decide_eq_true h2.symm
      obtain ⟨-, hok2, u2, hfind2, hcnt⟩ := check_allow_spec s ip today now hok hq
      have hu2 : u2.usageCount ≤ 99 := by omega
      cases hp : coordinateToAddressSafeParse body with
      | none =>
          have hst : (staticMapHandler s ip today now body).store
              = (checkUsageLimit s ip today now).2 := by
            simp [staticMapHandler, hA, hp]
          rw [hst]
          exact ⟨hokC, hleC, hkC⟩
      | some pr =>
          obtain ⟨lat, lng⟩ := pr
          cases hI : incrementUsageCount (checkUsageLimit s ip today now).2 ip today now with
          | none =>
              have hst : (staticMapHandler s ip today now body).store
                  = (checkUsageLimit s ip today now).2 := by
                simp [staticMapHandler, hA, hp, hI]
              rw [hst]
              exact ⟨hokC, hleC, hkC⟩
          | some pr2 =>
              obtain ⟨n, s2⟩ := pr2
              have hst : (staticMapHandler s ip today now body).store = s2 := by
                simp [staticMapHandler, hA, hp, hI]
              obtain ⟨hok3, hle3, hk3⟩ :=
                increment_preserve _ ip today now hok2 hleC u2 hfind2 hu2 n s2 hI
              rw [hst]
              exact ⟨hok3, hle3, recordsKept_trans hkC hk3⟩

/-- The coordinate-to-address route preserves the invariants and
removes no record. -/
theorem coord_preserve (s : MemStorage) (ip today : String) (now : Nat)
    (body : Json) (upstream : Upstream) (hok : StoreOk s) (hle : CountsLe 100 s) :
    StoreOk (coordinateToAddressHandler s ip today now body upstream).store ∧
    CountsLe 100 (coordinateToAddressHandler s ip today now body upstream).store ∧
    RecordsKept s (coordinateToAddressHandler s ip today now body upstream).store := by
  obtain ⟨hokC, hleC, hkC⟩ := check_preserve s ip today now hok hle
  cases hA : (checkUsageLimit s ip today now).1.allowed with
  | false =>
      have hst : (coordinateToAddressHandler s ip today now body upstream).store
          = (checkUsageLimit s ip today now).2 := by
        simp [coordinateToAddressHandler, hA]
      rw [hst]
      exact ⟨hokC, hleC, hkC⟩
  | true =>
      have hq : countView s ip today ≤ 99 := by
        have h2 := check_allowed_eq s ip today now
        rw [hA] at h2
        exact of_decide_eq_true h2.symm
      obtain ⟨-, hok2, u2, hfind2, hcnt⟩ := check_allow_spec s ip today now hok hq
      have hu2 : u2.usageCount ≤ 99 := by omega
      cases hp : coordinateToAddressSafeParse body with
      | none =>
          have hst : (coordinateToAddressHandler s ip today now body upstream).store
              = (checkUsageLimit s ip today now).2 := by
            simp [coordinateToAddressHandler, hA, hp]
          rw [hst]
          exact ⟨hokC, hleC, hkC⟩
      | some pr =>
          obtain ⟨lat, lng⟩ := pr
          have hcr : StoreOk (checkUsageLimit s ip today now).2 ∧
              CountsLe 100 (checkUsageLimit s ip today now).2 ∧
              RecordsKept s (checkUsageLimit s ip today now).2 := ⟨hokC, hleC, hkC⟩
          cases upstream with
          | axiosErr st =>
              have hst : (coordinateToAddressHandler s ip today now body
                  (Upstream.axiosErr st)).store = (checkUsageLimit s ip today now).2 := by
                simp [coordinateToAddressHandler, hA, hp]
              rw [hst]
              exact hcr
          | otherThrow =>
              have hst : (coordinateToAddressHandler s ip today now body
                  Upstream.otherThrow).store = (checkUsageLimit s ip today now).2 := by
                simp [coordinateToAddressHandler, hA, hp]
              rw [hst]
              exact hcr
          | noData =>
              have hst : (coordinateToAddressHandler s ip today now body
                  Upstream.noData).store = (checkUsageLimit s ip today now).2 := by
                simp [coordinateToAddressHandler, hA, hp]
              rw [hst]
              exact hcr
          | ok dta =>
              obtain ⟨docs⟩ := dta
              cases docs with
              | none =>
                  have hst : (coordinateToAddressHandler s ip today now body
                      (Upstream.ok ⟨none⟩)).store = (checkUsageLimit s ip today now).2 := by
                    simp [coordinateToAddressHandler, hA, hp]
                  rw [hst]
                  exact hcr
              | some ds =>
                  cases ds with
                  | nil =>
                      have hst : (coordinateToAddressHandler s ip today now body
                          (Upstream.ok ⟨some []⟩)).store
                          = (checkUsageLimit s ip today now).2 := by
                        simp [coordinateToAddressHandler, hA, hp]
                      rw [hst]
                      exact hcr
                  | cons d ds2 =>
                      cases hI : incrementUsageCount
                          (checkUsageLimit s ip today now).2 ip today now with
                      | none =>
                          have hst : (coordinateToAddressHandler s ip today now body
                              (Upstream.ok ⟨some (d :: ds2)⟩)).store
                              = (checkUsageLimit s ip today now).2 := by
                            simp [coordinateToAddressHandler, hA, hp, hI]
                          rw [hst]
                          exact hcr
                      | some pr2 =>
                          obtain ⟨n, s2⟩ := pr2
                          have hst : (coordinateToAddressHandler s ip today now body
                              (Upstream.ok ⟨some (d :: ds2)⟩)).store = s2 := by
                            simp [coordinateToAddressHandler, hA, hp, hI]
                          obtain ⟨hok3, hle3, hk3⟩ :=
                            increment_preserve _ ip today now hok2 hleC u2 hfind2 hu2 n s2 hI
                          rw [hst]
                          exact ⟨hok3, hle3, recordsKept_trans hkC hk3⟩

/-- Any single handled request preserves the invariants and removes no
record. -/
theorem step_preserve {s s2 : MemStorage} (hok : StoreOk s) (hle : CountsLe 100 s)
    (hstep : Step s s2) : StoreOk s2 ∧ CountsLe 100 s2 ∧ RecordsKept s s2 := by
  cases hstep with
  | usageQuery ip today => exact ⟨hok, hle, recordsKept_refl s⟩
  | staticMap ip today now body => exact staticMap_preserve s ip today now body hok hle
  | coordToAddress ip today now body upstream =>
      exact coord_preserve s ip today now body upstream hok hle

/-- Every reachable store is well-formed and all its counts are at most
100. -/
theorem reachable_inv (s : MemStorage) (h : Reachable s) :
    StoreOk s ∧ CountsLe 100 s := by
  induction h with
  | refl => exact ⟨storeOk_empty, fun e he => by simp [emptyStorage] at he⟩
  | tail h1 hstep ih =>
      obtain ⟨hok, hle⟩ := ih
      obtain ⟨hok2, hle2, -⟩ := step_preserve hok hle hstep
      exact ⟨hok2, hle2⟩

/-! ## Claim C1 -/

/-- One successful coordinate-to-address resolution, as a store
transformation (fixed client, day, coordinate and upstream document). -/
def resolveStep (ip today : String) (now : Nat) (lat lng : Rat)
    (document : KakaoDocument) (s : MemStorage) : MemStorage :=
  (coordinateToAddressHandler s ip today now (coordBody lat lng)
    (Upstream.ok ⟨some [document]⟩)).store

theorem resolve_iter_inv (ip today : String) (now : Nat) (lat lng : Rat)
    (document : KakaoDocument) :
    ∀ m, m ≤ 100 →
      StoreOk ((resolveStep ip today now lat lng document)^[m] emptyStorage) ∧
      countView ((resolveStep ip today now lat lng document)^[m] emptyStorage) ip today
        = m := by
  intro m
  induction m with
  | zero =>
      intro _
      exact ⟨storeOk_empty, by simp [countView, getUsageByIpAndDate, emptyStorage]⟩
  | succ k ih =>
      intro hk
      obtain ⟨hok, hcv⟩ := ih (by omega)
      have hq : countView ((resolveStep ip today now lat lng document)^[k] emptyStorage)
          ip today ≤ 99 := by omega
      obtain ⟨s2, heq, hok2, hcv2, -⟩ :=
        coord_success_spec ((resolveStep ip today now lat lng document)^[k] emptyStorage)
          ip today now (coordBody lat lng) lat lng document [] hok hq
          (parse_coordBody lat lng)
      rw [Function.iterate_succ_apply']
      constructor
      · show StoreOk (resolveStep ip today now lat lng document
          ((resolveStep ip today now lat lng document)^[k] emptyStorage))
        rw [resolveStep, heq]
        exact hok2
      · show countView (resolveStep ip today now lat lng document
          ((resolveStep ip today now lat lng document)^[k] emptyStorage)) ip today = k + 1
        rw [resolveStep, heq]
        rw [show (⟨⟨200, ResponseBody.successBody (extractAddress document) lat lng
            (countView ((resolveStep ip today now lat lng document)^[k] emptyStorage)
              ip today + 1)⟩, s2, true⟩ : HandlerResult).store = s2 from rfl]
        rw [hcv2, hcv]

/-- Claim C1: starting from the empty store, after `N` successful
coordinate-to-address resolutions for the same client on the same day
(`N < 100`), a record is stored whose observable count is `N`, the
usage query reports count `N`, and the resolution response of call
`k + 1` (for every `k < N`) carries the newly incremented count
`k + 1` as `usageCount`. -/
theorem coordinate_resolutions_count (ip today : String) (lat lng : Rat)
    (document : KakaoDocument) (now N k : Nat) (hk : k < N) (hN : N < 100) :
    countView ((resolveStep ip today now lat lng document)^[N] emptyStorage) ip today = N ∧
    (getUsageByIpAndDate ((resolveStep ip today now lat lng document)^[N] emptyStorage)
        ip today).isSome = true ∧
    (usageQueryHandler ((resolveStep ip today now lat lng document)^[N] emptyStorage)
        ip today).response.body = ResponseBody.usageBody N 100 today ∧
    (coordinateToAddressHandler
        ((resolveStep ip today now lat lng document)^[k] emptyStorage)
        ip today now (coordBody lat lng) (Upstream.ok ⟨some [document]⟩)).response
      = ⟨200, ResponseBody.successBody (extractAddress document) lat lng (k + 1)⟩ := by
  obtain ⟨hokN, hcvN⟩ :=
    resolve_iter_inv ip today now lat lng document N (by omega)
  obtain ⟨hokk, hcvk⟩ :=
    resolve_iter_inv ip today now lat lng document k (by omega)
  have hsome : (getUsageByIpAndDate
      ((resolveStep ip today now lat lng document)^[N] emptyStorage) ip today).isSome
      = true := by
    rcases hg : getUsageByIpAndDate
        ((resolveStep ip today now lat lng document)^[N] emptyStorage) ip today with _ | u
    · exfalso
      rw [countView, hg] at hcvN
      simp at hcvN
      omega
    · rfl
  refine ⟨hcvN, hsome, ?_, ?_⟩
  · have hN2 := hcvN
    rw [countView] at hN2
    simp only [usageQueryHandler]
    rw [hN2]
  · obtain ⟨s2, heq, -, -, -⟩ :=
      coord_success_spec ((resolveStep ip today now lat lng document)^[k] emptyStorage)
        ip today now (coordBody lat lng) lat lng document [] hokk (by omega)
        (parse_coordBody lat lng)
    rw [heq, hcvk]

theorem coordinate_resolutions_count_witness :
    2 < 3 ∧ 3 < 100 ∧
    (countView ((resolveStep "203.0.113.7" "2025-06-01" 0 37 127 (lotDoc "서울특별시 중구"))^[3]
        emptyStorage) "203.0.113.7" "2025-06-01" = 3 ∧
      (getUsageByIpAndDate ((resolveStep "203.0.113.7" "2025-06-01" 0 37 127
          (lotDoc "서울특별시 중구"))^[3] emptyStorage) "203.0.113.7" "2025-06-01").isSome
        = true ∧
      (usageQueryHandler ((resolveStep "203.0.113.7" "2025-06-01" 0 37 127
          (lotDoc "서울특별시 중구"))^[3] emptyStorage) "203.0.113.7"
          "2025-06-01").response.body = ResponseBody.usageBody 3 100 "2025-06-01" ∧
      (coordinateToAddressHandler ((resolveStep "203.0.113.7" "2025-06-01" 0 37 127
          (lotDoc "서울특별시 중구"))^[2] emptyStorage) "203.0.113.7" "2025-06-01" 0
          (coordBody 37 127) (Upstream.ok ⟨some [lotDoc "서울특별시 중구"]⟩)).response
        = ⟨200, ResponseBody.successBody (extractAddress (lotDoc "서울특별시 중구")) 37 127
            (2 + 1)⟩) :=
  ⟨by decide, by decide,
    coordinate_resolutions_count "203.0.113.7" "2025-06-01" 37 127 (lotDoc "서울특별시 중구")
      0 3 2 (by decide) (by decide)⟩

/-! ## Claim C2 -/

/-- Claim C2: under sequential (non-interleaved) execution of the
request handlers, each run reading a single date, every stored usage
count in every reachable store is at most 100: the quota check refuses
once the count reaches 100, and the handlers increment only after an
allowed check. -/
theorem usage_count_bounded (s : MemStorage) (hs : Reachable s) : CountsLe 100 s :=
  (reachable_inv s hs).2

theorem usage_count_bounded_witness :
    CountsLe 100 ((coordinateToAddressHandler emptyStorage "198.51.100.2" "2025-06-02" 0
        (coordBody 37 127) (Upstream.ok ⟨some [lotDoc "부산광역시"]⟩)).store) :=
  usage_count_bounded _
    (Relation.ReflTransGen.single
      (Step.coordToAddress emptyStorage "198.51.100.2" "2025-06-02" 0 (coordBody 37 127)
        (Upstream.ok ⟨some [lotDoc "부산광역시"]⟩)))

/-! ## Claim C3 -/

/-- Claim C3: when the stored count for (ip, today) is at least 100,
the coordinate-to-address request is answered 429 with the quota
message, the upstream geocoder is not called, and the store is left
exactly as it was. -/
theorem quota_exhausted_rejected (s : MemStorage) (ip today : String) (now : Nat)
    (body : Json) (upstream : Upstream) (u : UsageRecord)
    (hfind : getUsageByIpAndDate s ip today = some u) (hhigh : 100 ≤ u.usageCount) :
    coordinateToAddressHandler s ip today now body upstream
      = ⟨⟨429, ResponseBody.quotaBody "Daily usage limit exceeded (100 requests per day)"
          u.usageCount⟩, s, false⟩ := by
  simp [coordinateToAddressHandler, check_refuse_eq s ip today now u hfind hhigh]

theorem quota_exhausted_rejected_witness :
    getUsageByIpAndDate
        (⟨[(0, ⟨0, "192.0.2.9", 100, "2025-06-03", 0, 0⟩)], 1⟩ : MemStorage)
        "192.0.2.9" "2025-06-03"
      = some ⟨0, "192.0.2.9", 100, "2025-06-03", 0, 0⟩ ∧
    100 ≤ (⟨0, "192.0.2.9", 100, "2025-06-03", 0, 0⟩ : UsageRecord).usageCount ∧
    coordinateToAddressHandler
        (⟨[(0, ⟨0, "192.0.2.9", 100, "2025-06-03", 0, 0⟩)], 1⟩ : MemStorage)
        "192.0.2.9" "2025-06-03" 7 (coordBody 37 127) Upstream.otherThrow
      = ⟨⟨429, ResponseBody.quotaBody "Daily usage limit exceeded (100 requests per day)" 100⟩,
        ⟨[(0, ⟨0, "192.0.2.9", 100, "2025-06-03", 0, 0⟩)], 1⟩, false⟩ :=
  ⟨by decide, by decide,
    quota_exhausted_rejected
      (⟨[(0, ⟨0, "192.0.2.9", 100, "2025-06-03", 0, 0⟩)], 1⟩ : MemStorage)
      "192.0.2.9" "2025-06-03" 7 (coordBody 37 127) Upstream.otherThrow
      (⟨0, "192.0.2.9", 100, "2025-06-03", 0, 0⟩ : UsageRecord)
      (by decide) (by decide)⟩

/-! ## Claim C7 -/

/-- Claim C7: the usage query answers 200 with the current day's stored
count (0 when no record exists), the fixed limit 100 and today's date,
makes no upstream call, and leaves the store completely unchanged. -/
theorem usage_query_spec (s : MemStorage) (ip today : String) :
    (usageQueryHandler s ip today).store = s ∧
    (usageQueryHandler s ip today).upstreamCalled = false ∧
    (usageQueryHandler s ip today).response
      = ⟨200, ResponseBody.usageBody
          (match getUsageByIpAndDate s ip today with
           | none => 0
           | some u => u.usageCount) 100 today⟩ := by
  refine ⟨rfl, rfl, ?_⟩
  rcases hg : getUsageByIpAndDate s ip today with _ | u <;> simp [usageQueryHandler, hg]

/-! ## Claim C10 -/

/-- Claim C10: the map widget's click listener invokes the
caller-supplied location-selected callback exactly once per click, with
the latitude and longitude of the clicked coordinate (observed by
instantiating the callback with a call recorder). -/
theorem map_click_invokes_callback_once (mouseEvent : MapMouseEvent)
    (calls : List LocationData) :
    kakaoMapClickListener (fun loc acc => acc ++ [loc]) mouseEvent calls
      = calls ++ [⟨mouseEvent.latLng.lat, mouseEvent.latLng.lng, none⟩] ∧
    (kakaoMapClickListener (fun loc acc => acc ++ [loc]) mouseEvent calls).length
      = calls.length + 1 := by
  exact ⟨rfl, by simp [kakaoMapClickListener]⟩

/-! ## Claim C4 -/

/-- Claim C4, counterexample: a malformed body sent by a fresh client
is answered 400, but the usage store is NOT left unchanged — the quota
check runs before validation and creates a count-0 record, so the
claim's "no record created or modified" is false as stated. -/
theorem malformed_body_counterexample :
    (coordinateToAddressHandler emptyStorage "203.0.113.7" "2025-06-01" 0
        (Json.obj [("lat", Json.str "x")]) Upstream.otherThrow).response.status = 400 ∧
    (coordinateToAddressHandler emptyStorage "203.0.113.7" "2025-06-01" 0
        (Json.obj [("lat", Json.str "x")]) Upstream.otherThrow).store ≠ emptyStorage := by
  exact ⟨rfl, by decide⟩

/-- Claim C4, amended: a request whose body does not parse as an object
with numeric lat and lng is answered 400 with the validation message,
before any upstream call and without changing any observable usage
count: the quota check that runs first may create a count-0 record for
(ip, today) when none exists, but modifies no existing record. -/
theorem malformed_body_rejected (s : MemStorage) (ip today ip2 today2 : String)
    (now : Nat) (body : Json) (upstream : Upstream)
    (hok : StoreOk s) (hparse : coordinateToAddressSafeParse body = none)
    (hq : countView s ip today ≤ 99) :
    (coordinateToAddressHandler s ip today now body upstream).response
        = ⟨400, ResponseBody.validationBody "Invalid request body"⟩ ∧
    (coordinateToAddressHandler s ip today now body upstream).upstreamCalled = false ∧
    countView (coordinateToAddressHandler s ip today now body upstream).store ip2 today2
        = countView s ip2 today2 ∧
    OnlyFreshZero s (coordinateToAddressHandler s ip today now body upstream).store := by
  obtain ⟨hA, -, -⟩ := check_allow_spec s ip today now hok hq
  have hres : coordinateToAddressHandler s ip today now body upstream
      = ⟨⟨400, ResponseBody.validationBody "Invalid request body"⟩,
        (checkUsageLimit s ip today now).2, false⟩ := by
    simp [coordinateToAddressHandler, hA, hparse]
  rw [hres]
  exact ⟨rfl, rfl, check_countView_frame s ip today now ip2 today2 hok,
    check_onlyFreshZero s ip today now hok⟩

theorem malformed_body_rejected_witness :
    StoreOk emptyStorage ∧
    coordinateToAddressSafeParse (Json.obj [("lat", Json.str "x")]) = none ∧
    countView emptyStorage "203.0.113.7" "2025-06-01" ≤ 99 ∧
    ((coordinateToAddressHandler emptyStorage "203.0.113.7" "2025-06-01" 0
        (Json.obj [("lat", Json.str "x")]) Upstream.otherThrow).response
        = ⟨400, ResponseBody.validationBody "Invalid request body"⟩ ∧
      (coordinateToAddressHandler emptyStorage "203.0.113.7" "2025-06-01" 0
        (Json.obj [("lat", Json.str "x")]) Upstream.otherThrow).upstreamCalled = false ∧
      countView (coordinateToAddressHandler emptyStorage "203.0.113.7" "2025-06-01" 0
          (Json.obj [("lat", Json.str "x")]) Upstream.otherThrow).store
          "198.51.100.2" "2025-06-02"
        = countView emptyStorage "198.51.100.2" "2025-06-02" ∧
      OnlyFreshZero emptyStorage
        (coordinateToAddressHandler emptyStorage "203.0.113.7" "2025-06-01" 0
          (Json.obj [("lat", Json.str "x")]) Upstream.otherThrow).store) :=
  ⟨storeOk_empty, rfl, by decide,
    malformed_body_rejected emptyStorage "203.0.113.7" "2025-06-01" "198.51.100.2"
      "2025-06-02" 0 (Json.obj [("lat", Json.str "x")]) Upstream.otherThrow
      storeOk_empty rfl (by decide)⟩

/-! ## Claim C5 -/

/-- Modelled from the spec (§4.2): the spec's address preference — use
the lot-number address when present, otherwise the road address,
otherwise the fixed placeholder. -/
def specAddressPreference (document : KakaoDocument) : String :=
  match document.address with
  | some lot => lot.address_name
  | none =>
      match document.road_address with
      | some road => road.address_name
      | none => "주소를 찾을 수 없습니다"

/-- Claim C5: with the quota available and a well-formed body, a
non-empty upstream documents list is answered 200 with exactly the
spec's preferred address for the first document (lot-number address if
present, else road address, else the placeholder), while an empty or
absent documents list is answered 404. -/
theorem address_extraction_preference (s : MemStorage) (ip today : String) (now : Nat)
    (lat lng : Rat) (document : KakaoDocument) (rest : List KakaoDocument)
    (hok : StoreOk s) (hq : countView s ip today ≤ 99) :
    (coordinateToAddressHandler s ip today now (coordBody lat lng)
        (Upstream.ok ⟨some (document :: rest)⟩)).response
      = ⟨200, ResponseBody.successBody (specAddressPreference document) lat lng
          (countView s ip today + 1)⟩ ∧
    (coordinateToAddressHandler s ip today now (coordBody lat lng)
        (Upstream.ok ⟨some []⟩)).response.status = 404 ∧
    (coordinateToAddressHandler s ip today now (coordBody lat lng)
        (Upstream.ok ⟨none⟩)).response.status = 404 := by
  obtain ⟨hA, -, -⟩ := check_allow_spec s ip today now hok hq
  have hbridge : extractAddress document = specAddressPreference document := by
    rcases document with ⟨a, r⟩
    cases a <;> cases r <;> rfl
  obtain ⟨s2, heq, -, -, -⟩ :=
    coord_success_spec s ip today now (coordBody lat lng) lat lng document rest hok hq
      (parse_coordBody lat lng)
  refine ⟨?_, ?_, ?_⟩
  · rw [heq, hbridge]
  · simp [coordinateToAddressHandler, hA, parse_coordBody]
  · simp [coordinateToAddressHandler, hA, parse_coordBody]

theorem address_extraction_preference_witness :
    StoreOk emptyStorage ∧ countView emptyStorage "203.0.113.7" "2025-06-01" ≤ 99 ∧
    ((coordinateToAddressHandler emptyStorage "203.0.113.7" "2025-06-01" 0
        (coordBody 37 127) (Upstream.ok ⟨some [(⟨none, none⟩ : KakaoDocument)]⟩)).response
      = ⟨200, ResponseBody.successBody
          (specAddressPreference (⟨none, none⟩ : KakaoDocument)) 37 127
          (countView emptyStorage "203.0.113.7" "2025-06-01" + 1)⟩ ∧
    (coordinateToAddressHandler emptyStorage "203.0.113.7" "2025-06-01" 0
        (coordBody 37 127) (Upstream.ok ⟨some []⟩)).response.status = 404 ∧
    (coordinateToAddressHandler emptyStorage "203.0.113.7" "2025-06-01" 0
        (coordBody 37 127) (Upstream.ok ⟨none⟩)).response.status = 404) :=
  ⟨storeOk_empty, by decide,
    address_extraction_preference emptyStorage "203.0.113.7" "2025-06-01" 0 37 127
      (⟨none, none⟩ : KakaoDocument) [] storeOk_empty (by decide)⟩

/-! ## Claim C8 -/

/-- Claim C8: in every reachable store there is at most one usage
record per (ip, date) pair, and no handled request removes a record
(an entry with the same key, ip and date always survives). -/
theorem unique_record_per_client_day (s s2 : MemStorage) (hs : Reachable s)
    (hstep : Step s s2) :
    (s.usageRecords.Pairwise fun a b =>
      ¬(a.2.ipAddress = b.2.ipAddress ∧ a.2.date = b.2.date)) ∧
    RecordsKept s s2 := by
  obtain ⟨hok, hle⟩ := reachable_inv s hs
  exact ⟨hok.2.2.2, (step_preserve hok hle hstep).2.2⟩

theorem unique_record_per_client_day_witness :
    (((staticMapHandler emptyStorage "198.51.100.2" "2025-06-02" 0
        (coordBody 37 127)).store.usageRecords).Pairwise fun a b =>
      ¬(a.2.ipAddress = b.2.ipAddress ∧ a.2.date = b.2.date)) ∧
    RecordsKept (staticMapHandler emptyStorage "198.51.100.2" "2025-06-02" 0
        (coordBody 37 127)).store
      (usageQueryHandler (staticMapHandler emptyStorage "198.51.100.2" "2025-06-02" 0
        (coordBody 37 127)).store "198.51.100.2" "2025-06-02").store :=
  unique_record_per_client_day _ _
    (Relation.ReflTransGen.single
      (Step.staticMap emptyStorage "198.51.100.2" "2025-06-02" 0 (coordBody 37 127)))
    (Step.usageQuery _ "198.51.100.2" "2025-06-02")

/-! ## Claim C9 -/

/-- Claim C9: the static-map route is governed by the same per-(ip,
day) counter as the coordinate-to-address route: it is refused 429
exactly when that shared count has reached 100, and a successful
static-map response raises by one the count that both the usage query
and the quota check observe. -/
theorem static_map_shares_quota (s : MemStorage) (ip today : String) (now now2 : Nat)
    (lat lng : Rat) (hok : StoreOk s) :
    (staticMapHandler s ip today now (coordBody lat lng)).response.status
        = (if quotaFlag s ip today then 429 else 200) ∧
    (staticMapHandler s ip today now (coordBody lat lng)).store
        = (if quotaFlag s ip today then s
           else (staticMapHandler s ip today now (coordBody lat lng)).store) ∧
    countView (staticMapHandler s ip today now (coordBody lat lng)).store ip today
        = (if quotaFlag s ip today then countView s ip today
           else countView s ip today + 1) ∧
    (usageQueryHandler (staticMapHandler s ip today now (coordBody lat lng)).store
        ip today).response.body
        = ResponseBody.usageBody
            (countView (staticMapHandler s ip today now (coordBody lat lng)).store ip today)
            100 today ∧
    (checkUsageLimit (staticMapHandler s ip today now (coordBody lat lng)).store
        ip today now2).1.currentCount
        = countView (staticMapHandler s ip today now (coordBody lat lng)).store ip today := by
  have hquery : ∀ s3 : MemStorage, (usageQueryHandler s3 ip today).response.body
      = ResponseBody.usageBody (countView s3 ip today) 100 today := fun s3 => rfl
  by_cases hq : 100 ≤ countView s ip today
  · have hflag : quotaFlag s ip today = true := decide_eq_true hq
    rcases hg : getUsageByIpAndDate s ip today with _ | u
    · exfalso
      rw [countView, hg] at hq
      simp at hq
    · have hhigh : 100 ≤ u.usageCount := by
        have h2 : countView s ip today = u.usageCount := by rw [countView, hg]; rfl
        omega
      have hres : staticMapHandler s ip today now (coordBody lat lng)
          = ⟨⟨429, ResponseBody.quotaBody "Daily usage limit exceeded (100 requests per day)"
              u.usageCount⟩, s, false⟩ := by
        simp [staticMapHandler, check_refuse_eq s ip today now u hg hhigh]
      rw [hres]
      exact ⟨by simp [hflag], by simp [hflag], by simp [hflag], hquery s,
        check_currentCount s ip today now2⟩
  · have hq2 : countView s ip today ≤ 99 := by omega
    have hflag : quotaFlag s ip today = false := by
      simp only [quotaFlag, decide_eq_false_iff_not]
      omega
    obtain ⟨s2, heq, -, hcv2, -⟩ :=
      staticMap_success_spec s ip today now (coordBody lat lng) lat lng hok hq2
        (parse_coordBody lat lng)
    rw [heq]
    refine ⟨by simp [hflag], by simp [hflag], ?_, hquery s2,
      check_currentCount s2 ip today now2⟩
    simp only [hflag, Bool.false_eq_true, if_false]
    exact hcv2

theorem static_map_shares_quota_witness :
    StoreOk emptyStorage ∧
    ((staticMapHandler emptyStorage "203.0.113.7" "2025-06-01" 0
        (coordBody 37 127)).response.status
        = (if quotaFlag emptyStorage "203.0.113.7" "2025-06-01" then 429 else 200) ∧
    (staticMapHandler emptyStorage "203.0.113.7" "2025-06-01" 0 (coordBody 37 127)).store
        = (if quotaFlag emptyStorage "203.0.113.7" "2025-06-01" then emptyStorage
           else (staticMapHandler emptyStorage "203.0.113.7" "2025-06-01" 0
              (coordBody 37 127)).store) ∧
    countView (staticMapHandler emptyStorage "203.0.113.7" "2025-06-01" 0
        (coordBody 37 127)).store "203.0.113.7" "2025-06-01"
        = (if quotaFlag emptyStorage "203.0.113.7" "2025-06-01"
           then countView emptyStorage "203.0.113.7" "2025-06-01"
           else countView emptyStorage "203.0.113.7" "2025-06-01" + 1) ∧
    (usageQueryHandler (staticMapHandler emptyStorage "203.0.113.7" "2025-06-01" 0
        (coordBody 37 127)).store "203.0.113.7" "2025-06-01").response.body
        = ResponseBody.usageBody
            (countView (staticMapHandler emptyStorage "203.0.113.7" "2025-06-01" 0
              (coordBody 37 127)).store "203.0.113.7" "2025-06-01") 100 "2025-06-01" ∧
    (checkUsageLimit (staticMapHandler emptyStorage "203.0.113.7" "2025-06-01" 0
        (coordBody 37 127)).store "203.0.113.7" "2025-06-01" 9).1.currentCount
        = countView (staticMapHandler emptyStorage "203.0.113.7" "2025-06-01" 0
            (coordBody 37 127)).store "203.0.113.7" "2025-06-01") :=
  ⟨storeOk_empty,
    static_map_shares_quota emptyStorage "203.0.113.7" "2025-06-01" 0 9 37 127
      storeOk_empty⟩

/-! ## Claim C6 -/

/-- Modelled from the spec (§7): the error taxonomy — quota exceeded
429, malformed request 400, upstream not-found 404, upstream rate-limit
429, upstream authentication or other failure and unexpected exceptions
500, success 200.  The quota category takes precedence over validation,
matching the order in which the handler performs the checks. -/
def specTaxonomyStatus (quotaExceeded malformed : Bool) (upstream : Upstream) : Nat :=
  if quotaExceeded then 429
  else if malformed then 400
  else
    match upstream with
    | Upstream.ok dta =>
        match dta.documents with
        | none => 404
        | some [] => 404
        | some (_ :: _) => 200
    | Upstream.noData => 404
    | Upstream.axiosErr st => if st = some 429 then 429 else 500
    | Upstream.otherThrow => 500

/-- Claim C6: on a well-formed store, the coordinate-to-address handler
answers exactly the status prescribed by the spec's taxonomy for the
request's condition, and every non-200 response carries a JSON body
with a `message` field. -/
theorem error_taxonomy (s : MemStorage) (ip today : String) (now : Nat)
    (body : Json) (upstream : Upstream) (hok : StoreOk s) :
    (coordinateToAddressHandler s ip today now body upstream).response.status
      = specTaxonomyStatus (quotaFlag s ip today)
          (coordinateToAddressSafeParse body).isNone upstream ∧
    ((coordinateToAddressHandler s ip today now body upstream).response.status = 200 ∨
      ((coordinateToAddressHandler s ip today now body
          upstream).response.body.message).isSome = true) := by
  by_cases hq : 100 ≤ countView s ip today
  · have hflag : quotaFlag s ip today = true := decide_eq_true hq
    rcases hg : getUsageByIpAndDate s ip today with _ | u
    · exfalso
      rw [countView, hg] at hq
      simp at hq
    · have hhigh : 100 ≤ u.usageCount := by
        have h2 : countView s ip today = u.usageCount := by rw [countView, hg]; rfl
        omega
      have hres : coordinateToAddressHandler s ip today now body upstream
          = ⟨⟨429, ResponseBody.quotaBody "Daily usage limit exceeded (100 requests per day)"
              u.usageCount⟩, s, false⟩ := by
        simp [coordinateToAddressHandler, check_refuse_eq s ip today now u hg hhigh]
      rw [hres]
      exact ⟨by simp [specTaxonomyStatus, hflag], Or.inr rfl⟩
  · have hq2 : countView s ip today ≤ 99 := by omega
    have hflag : quotaFlag s ip today = false := by
      simp only [quotaFlag, decide_eq_false_iff_not]
      omega
    obtain ⟨hA, -, -⟩ := check_allow_spec s ip today now hok hq2
    cases hp : coordinateToAddressSafeParse body with
    | none =>
        have hres : coordinateToAddressHandler s ip today now body upstream
            = ⟨⟨400, ResponseBody.validationBody "Invalid request body"⟩,
              (checkUsageLimit s ip today now).2, false⟩ := by
          simp [coordinateToAddressHandler, hA, hp]
        rw [hres]
        exact ⟨by simp [specTaxonomyStatus, hflag, hp], Or.inr rfl⟩
    | some pr =>
        obtain ⟨lat, lng⟩ := pr
        have hisN : (coordinateToAddressSafeParse body).isNone = false := by simp [hp]
        cases upstream with
        | axiosErr st =>
            have hres : coordinateToAddressHandler s ip today now body
                (Upstream.axiosErr st)
                = ⟨axiosCatchResponse st, (checkUsageLimit s ip today now).2, true⟩ := by
              simp [coordinateToAddressHandler, hA, hp]
            rw [hres]
            constructor
            · by_cases h1 : st = some 401
              · subst h1
                simp [axiosCatchResponse, specTaxonomyStatus, hflag, hisN]
              · by_cases h2 : st = some 429
                · subst h2
                  simp [axiosCatchResponse, specTaxonomyStatus, hflag, hisN]
                · simp [axiosCatchResponse, specTaxonomyStatus, hflag, hisN, h1, h2]
            · right
              by_cases h1 : st = some 401
              · subst h1
                simp [axiosCatchResponse, ResponseBody.message]
              · by_cases h2 : st = some 429
                · subst h2
                  simp [axiosCatchResponse, ResponseBody.message]
                · simp [axiosCatchResponse, ResponseBody.message, h1, h2]
        | otherThrow =>
            have hres : coordinateToAddressHandler s ip today now body Upstream.otherThrow
                = ⟨⟨500, ResponseBody.errorBody "Failed to convert coordinates to address"⟩,
                  (checkUsageLimit s ip today now).2, true⟩ := by
              simp [coordinateToAddressHandler, hA, hp]
            rw [hres]
            exact ⟨by simp [specTaxonomyStatus, hflag, hisN], Or.inr rfl⟩
        | noData =>
            have hres : coordinateToAddressHandler s ip today now body Upstream.noData
                = ⟨⟨404, ResponseBody.errorBody
                    "Address not found for the given coordinates"⟩,
                  (checkUsageLimit s ip today now).2, true⟩ := by
              simp [coordinateToAddressHandler, hA, hp]
            rw [hres]
            exact ⟨by simp [specTaxonomyStatus, hflag, hisN], Or.inr rfl⟩
        | ok dta =>
            obtain ⟨docs⟩ := dta
            cases docs with
            | none =>
                have hres : coordinateToAddressHandler s ip today now body
                    (Upstream.ok ⟨none⟩)
                    = ⟨⟨404, ResponseBody.errorBody
                        "Address not found for the given coordinates"⟩,
                      (checkUsageLimit s ip today now).2, true⟩ := by
                  simp [coordinateToAddressHandler, hA, hp]
                rw [hres]
                exact ⟨by simp [specTaxonomyStatus, hflag, hisN], Or.inr rfl⟩
            | some ds =>
                cases ds with
                | nil =>
                    have hres : coordinateToAddressHandler s ip today now body
                        (Upstream.ok ⟨some []⟩)
                        = ⟨⟨404, ResponseBody.errorBody
                            "Address not found for the given coordinates"⟩,
                          (checkUsageLimit s ip today now).2, true⟩ := by
                      simp [coordinateToAddressHandler, hA, hp]
                    rw [hres]
                    exact ⟨by simp [specTaxonomyStatus, hflag, hisN], Or.inr rfl⟩
                | cons d ds2 =>
                    obtain ⟨s2, heq, -, -, -⟩ :=
                      coord_success_spec s ip today now body lat lng d ds2 hok hq2 hp
                    rw [heq]
                    exact ⟨by simp [specTaxonomyStatus, hflag, hisN], Or.inl rfl⟩

theorem error_taxonomy_witness :
    StoreOk emptyStorage ∧
    ((coordinateToAddressHandler emptyStorage "203.0.113.7" "2025-06-01" 0
        (coordBody 37 127) (Upstream.axiosErr (some 429))).response.status
      = specTaxonomyStatus (quotaFlag emptyStorage "203.0.113.7" "2025-06-01")
          (coordinateToAddressSafeParse (coordBody 37 127)).isNone
          (Upstream.axiosErr (some 429)) ∧
    ((coordinateToAddressHandler emptyStorage "203.0.113.7" "2025-06-01" 0
        (coordBody 37 127) (Upstream.axiosErr (some 429))).response.status = 200 ∨
      ((coordinateToAddressHandler emptyStorage "203.0.113.7" "2025-06-01" 0
        (coordBody 37 127) (Upstream.axiosErr (some 429))).response.body.message).isSome
        = true)) :=
  ⟨storeOk_empty,
    error_taxonomy emptyStorage "203.0.113.7" "2025-06-01" 0 (coordBody 37 127)
      (Upstream.axiosErr (some 429)) storeOk_empty⟩

end MapAddrSaver
